import Mathlib

/-
Verification of the NB.no book downloader against its specification.

The repository contains two variants of the program, both `package main`:
  * `main.go` — the tiled-mode downloader: it discovers the tile grid
    (`findRowsColsAndImgSize`), assembles each page from tiles
    (`downloadPage`), and drives the whole book (`downloadBook`).
  * a second file (direct mode) — it fetches each page as a single image
    (`downloadPage`, recursive retry), probes intro pages `I1, I2, ...`
    with HEAD requests, and assembles the PDF with per-file existence
    checks (`downloadBook`).

The embedding below models the network as explicit response-valued
functions (URL formatting via `params` / `formatURL` is abstracted into
those functions: a request is identified by the page id and, in tiled
mode, the tile column and row).  Loops whose termination depends on the
remote source are given explicit fuel and return `none` when the fuel
runs out; a statement `... fuel ... = none` for every fuel therefore
expresses that the source loop does not terminate on that input.
-/

namespace NB

/-- Shared `findBookLength` routine (identical in both source files),
modelled over `Int` exactly as the Go code: `delta := 100; j := 100`;
a successful probe advances `j += delta`; a failed probe with `delta == 1`
returns `j - 1`; otherwise `j -= delta; delta = delta / 10;
if delta < 1 then delta = 1; j += delta`.  `valid j` is the outcome of the
probe `GET` at page `j` (`true` iff status 200, anything else, including a
transport error, is the failure branch). -/
def findBookLength (valid : Int → Bool) : Nat → Int → Int → Option Int
  | 0, _, _ => none
  | fuel + 1, j, delta =>
    if valid j then
      findBookLength valid fuel (j + delta) delta
    else if delta = 1 then
      some (j - 1)
    else
      let d0 := delta / 10
      let d := if d0 < 1 then 1 else d0
      findBookLength valid fuel (j - delta + d) d

/-! Tiled mode (`main.go`). -/

/-- Body of a tiled-mode HTTP response with status 200: either an image
that decodes with pixel size `dx × dy`, or a body on which `io.ReadAll`
or `image.Decode` fails (both lead to the same `continue` in the code). -/
inductive TBody where
  | img (dx dy : Nat)
  | bad
deriving DecidableEq

/-- Tiled-mode response to `client.Get`: a transport error (in which case
the Go `resp` is nil) or a status code with a body. -/
inductive TResp where
  | err
  | status (code : Nat) (body : TBody)
deriving DecidableEq

/-- Record of one `draw.Draw` call in `downloadPage`: tile `(col, row)`
pasted at destination offset `(x, y)` with size `dx × dy`. -/
structure Paste where
  col : Nat
  row : Nat
  x : Nat
  y : Nat
  dx : Nat
  dy : Nat
deriving DecidableEq

/-- Outcome of the tiled `downloadPage` tile loop: `done` when both nested
loops finish (carrying the paste records, the final value of the shared
`b.retry` counter, and the number of `GET` requests issued), or `exited`
when a 401 response triggered `os.Exit(1)` (carrying the state at that
moment; `retry` is untouched by the exit path). -/
inductive TPageResult where
  | done (pastes : List Paste) (retry : Int) (reqs : Nat)
  | exited (pastes : List Paste) (retry : Int) (reqs : Nat)
deriving DecidableEq

namespace Tiled

/-- Nested tile loop of `downloadPage` in `main.go` (lines 123-178),
fuel-indexed.  `src col row` is the response to the tile request.  One
iteration of this function is one check of a loop condition followed by
at most one request, exactly as in the source:
  * `row < rows` false: both loops are over, return `done`.
  * `col < cols` false: the inner loop ends, the outer loop advances
    (`row++`, fresh `col := 0`; `xOffset`/`yOffset` persist).
  * transport error (`resp` nil, so the 401 check cannot fire): with
    `retry >= 0` the code does `retry--; col--` and the loop's `col++`
    restores `col`, so the same tile is retried; with `retry < 0` the
    tile is abandoned and `col++` advances.
  * status 401: `os.Exit(1)`.
  * other non-200 status: same retry handling as a transport error.
  * status 200 with an unreadable or undecodable body: `continue`, which
    skips the `col++` at the bottom of the inner loop and changes nothing
    else — the identical state is re-entered.
  * status 200 with an image: `draw.Draw` at `(xOffset, yOffset)`, then
    `xOffset += dx`, and when `col == cols - 1` also `xOffset := 0;
    yOffset += dy`; then `col++`. -/
def downloadPageLoop (src : Nat → Nat → TResp) (cols rows : Nat) :
    Nat → Nat → Nat → Nat → Nat → Int → List Paste → Nat → Option TPageResult
  | 0, _, _, _, _, _, _, _ => none
  | fuel + 1, row, col, xOff, yOff, retry, pastes, reqs =>
    if row < rows then
      if col < cols then
        match src col row with
        | .err =>
          if 0 ≤ retry then
            downloadPageLoop src cols rows fuel row col xOff yOff (retry - 1) pastes (reqs + 1)
          else
            downloadPageLoop src cols rows fuel row (col + 1) xOff yOff retry pastes (reqs + 1)
        | .status code body =>
          if code = 200 then
            match body with
            | .bad =>
              downloadPageLoop src cols rows fuel row col xOff yOff retry pastes (reqs + 1)
            | .img dx dy =>
              let pastes := pastes ++ [⟨col, row, xOff, yOff, dx, dy⟩]
              if col = cols - 1 then
                downloadPageLoop src cols rows fuel row (col + 1) 0 (yOff + dy) retry pastes (reqs + 1)
              else
                downloadPageLoop src cols rows fuel row (col + 1) (xOff + dx) yOff retry pastes (reqs + 1)
          else if code = 401 then
            some (.exited pastes retry (reqs + 1))
          else
            if 0 ≤ retry then
              downloadPageLoop src cols rows fuel row col xOff yOff (retry - 1) pastes (reqs + 1)
            else
              downloadPageLoop src cols rows fuel row (col + 1) xOff yOff retry pastes (reqs + 1)
      else
        downloadPageLoop src cols rows fuel (row + 1) 0 xOff yOff retry pastes reqs
    else
      some (.done pastes retry reqs)

end Tiled

/-- Output file written by the tiled `downloadPage` (`jpeg.Encode` of the
raster created by `image.NewRGBA(image.Rect(0, 0, imgSize[0], imgSize[1]))`
with the recorded pastes drawn onto it). -/
structure PageFile where
  name : String
  dims : Nat × Nat
  pastes : List Paste
deriving DecidableEq

/-- Outcome of one tiled `downloadPage` call: the written file (none when
`os.Create` fails, and none on the `os.Exit(1)` path, which is reached
before the file write), the final value of the shared retry counter, the
number of tile requests issued, and whether `os.Exit(1)` fired. -/
structure DPOut where
  file : Option PageFile
  retry : Int
  reqs : Nat
  exited : Bool
deriving DecidableEq

namespace Tiled

/-- Tiled `downloadPage` (`main.go` lines 117-190): run the tile loop from
`row = 0, col = 0, xOffset = 0, yOffset = 0` on a fresh raster of size
`imgSize`, then unconditionally create `pageNr + ".jpg"` and encode the
raster into it (the encode happens whether or not any tile succeeded;
only an `os.Create` failure, `createOk = false`, skips it). -/
def downloadPage (src : Nat → Nat → TResp) (createOk : Bool)
    (imgSize : Nat × Nat) (cols rows : Nat) (pageNr : String) (retry : Int)
    (fuel : Nat) : Option DPOut :=
  match downloadPageLoop src cols rows fuel 0 0 0 0 retry [] 0 with
  | none => none
  | some (.exited _ retryOut reqs) => some ⟨none, retryOut, reqs, true⟩
  | some (.done pastes retryOut reqs) =>
    if createOk then
      some ⟨some ⟨pageNr ++ ".jpg", imgSize, pastes⟩, retryOut, reqs, false⟩
    else
      some ⟨none, retryOut, reqs, false⟩

end Tiled

/-- Axis loop of `findRowsColsAndImgSize`: the Go code starts the counter
at `-1` and increments it at the top of the loop, so it probes indices
`0, 1, 2, ...` and leaves the counter at the first failing index, having
accumulated one pixel dimension per successful probe.  `probe i` is
`some d` when the request at index `i` returns status 200 with a body
that reads and decodes as an image of relevant dimension `d` (height for
the row axis, width for the column axis), and `none` on any failure,
which breaks the loop — there is no retry during grid discovery. -/
def probeAxis (probe : Nat → Option Nat) : Nat → Nat → Nat → Option (Nat × Nat)
  | 0, _, _ => none
  | fuel + 1, idx, acc =>
    match probe idx with
    | none => some (idx, acc)
    | some d => probeAxis probe fuel (idx + 1) (acc + d)

/-- Grid dimensions and accumulated page pixel size found by the prober. -/
structure GridInfo where
  rows : Nat
  cols : Nat
  width : Nat
  height : Nat
deriving DecidableEq

/-- Grid discovery `findRowsColsAndImgSize` (`main.go` lines 291-343):
first the row axis (column fixed at 0, accumulating `imgSize[1]` from the
probed tiles' heights), then the column axis (row fixed at 0, accumulating
`imgSize[0]` from the probed tiles' widths). -/
def findRowsColsAndImgSize (rowProbe colProbe : Nat → Option Nat)
    (fuel : Nat) : Option GridInfo :=
  match probeAxis rowProbe fuel 0 0 with
  | none => none
  | some (rows, height) =>
    match probeAxis colProbe fuel 0 0 with
    | none => none
    | some (cols, width) => some ⟨rows, cols, width, height⟩

/-- Tiled-mode `Book` state (`main.go` struct fields that the claims are
about; the request-parameter map and filesystem paths are abstracted into
the source functions and `createOk`). -/
structure Book where
  id : String
  length : Nat
  rows : Nat
  cols : Nat
  imgSize : Nat × Nat
  retry : Int
deriving DecidableEq

namespace Tiled

/-- Tiled `NewBook` (`main.go` lines 40-105): the constructor sets
`retry := 2` and runs `findRowsColsAndImgSize` before returning, so grid
dimensions and page pixel size are fixed at session construction, before
any page is assembled. -/
def NewBook (id : String) (length : Nat) (rowProbe colProbe : Nat → Option Nat)
    (fuel : Nat) : Option Book :=
  match findRowsColsAndImgSize rowProbe colProbe fuel with
  | none => none
  | some g => some ⟨id, length, g.rows, g.cols, (g.width, g.height), 2⟩

/-- Result of a tiled `downloadBook` run: the final book state, the list
of `downloadPage` invocations each paired with the book state at the
moment of the call, the pages handed to the PDF in order (empty when the
run died in `os.Exit(1)` before `pdf.OutputFileAndClose`), and whether it
aborted that way. -/
structure RunOut where
  book : Book
  calls : List (String × Book)
  pdf : List String
  aborted : Bool
deriving DecidableEq

/-- Page-download loop of tiled `downloadBook`: each listed page is
downloaded with the book's current retry counter and afterwards the code
does `b.retry = 2` (this reset follows the front cover, line 236, and
every numbered page, line 245).  `src pg col row` is the response to the
tile request of page `pg`.  A 401 inside any page exits the process. -/
def runPages (src : String → Nat → Nat → TResp) (createOk : Bool) (fuel : Nat) :
    List String → Book → List (String × Book) →
    Option (Book × List (String × Book) × Bool)
  | [], b, calls => some (b, calls, false)
  | pg :: rest, b, calls =>
    match downloadPage (src pg) createOk b.imgSize b.cols b.rows pg b.retry fuel with
    | none => none
    | some out =>
      if out.exited then
        some ({ b with retry := out.retry }, calls ++ [(pg, b)], true)
      else
        runPages src createOk fuel rest { b with retry := 2 } (calls ++ [(pg, b)])

/-- Tiled `downloadBook` (`main.go` lines 221-267): front cover `C1`, the
numbered pages `1..length` (each followed by `b.retry = 2`), then the back
cover `C3` with no reset after it.  The PDF receives `C1`, every numbered
page and `C3` with no existence check on the page files; it is only
written out if the process did not exit. -/
def downloadBook (src : String → Nat → Nat → TResp) (createOk : Bool)
    (fuel : Nat) (b : Book) : Option RunOut :=
  match runPages src createOk fuel
      ("C1" :: (List.range b.length).map (fun i => toString (i + 1))) b [] with
  | none => none
  | some (b1, calls, true) => some ⟨b1, calls, [], true⟩
  | some (b1, calls, false) =>
    match downloadPage (src "C3") createOk b1.imgSize b1.cols b1.rows "C3" b1.retry fuel with
    | none => none
    | some out =>
      let b2 := { b1 with retry := out.retry }
      if out.exited then
        some ⟨b2, calls ++ [("C3", b1)], [], true⟩
      else
        some ⟨b2, calls ++ [("C3", b1)],
          "C1" :: ((List.range b.length).map (fun i => toString (i + 1)) ++ ["C3"]),
          false⟩

end Tiled

/-! Direct mode (the second source file). -/

/-- Direct-mode response to `client.Get`: a transport error (`resp` nil)
or a status code together with whether `io.ReadAll` of the body succeeds. -/
inductive DResp where
  | err
  | status (code : Nat) (bodyOk : Bool)
deriving DecidableEq

/-- Success test of the direct-mode fetch: `err == nil` and status 200. -/
def isOk : DResp → Bool
  | .err => false
  | .status code _ => code == 200

/-- Outcome of one direct-mode `downloadPage` call: whether the page file
was written, the final value of `b.retry`, and the number of `GET`
requests issued across the recursive retries. -/
structure DPageOut where
  written : Bool
  retry : Int
  reqs : Nat
deriving DecidableEq

namespace Direct

/-- Direct-mode `downloadPage` (second file, lines 93-148).  `src a` is
the response to the `a`-th attempt (the URL is identical each time).
The `Nat` argument is fuel bounding the recursion depth; the real
recursion depth is at most `retry + 2`, so any larger fuel is enough and
`none` means the fuel ran out or the run crashed.
On `err != nil || status != 200` the code first formats
`resp.StatusCode`; when the failure is a transport error `resp` is nil
and that line dereferences a nil pointer, so the run crashes — modelled
as `none`.  A 401 or 403 status only prints a message and dumps cookies;
control then falls through to the ordinary retry branch: with
`b.retry >= 0` it decrements the counter and recursively re-invokes
`downloadPage`, otherwise it gives up on the page.  On success the body
is read (a read failure returns without writing), the file is written
when `os.Create` succeeds, and only then `b.retry = 2` resets the
counter. -/
def downloadPage (src : Nat → DResp) (createOk : Bool) :
    Nat → Int → Nat → Option DPageOut
  | 0, _, _ => none
  | fuel + 1, retry, attempt =>
    match src attempt with
    | .err => none
    | .status code bodyOk =>
      if code = 200 then
        if bodyOk then
          if createOk then some ⟨true, 2, 1⟩ else some ⟨false, retry, 1⟩
        else some ⟨false, retry, 1⟩
      else
        if 0 ≤ retry then
          match downloadPage src createOk fuel (retry - 1) (attempt + 1) with
          | none => none
          | some out => some ⟨out.written, out.retry, out.reqs + 1⟩
        else some ⟨false, retry, 1⟩

/-- Intro-page loop of the direct-mode `downloadBook` (lines 219-240):
for `n = 1, 2, ...` issue a HEAD existence probe for page `I{n}`; the
first missing index breaks the loop, every existing intro page is fully
downloaded in order.  State: next index `n`, current `b.retry`, the list
of `downloadPage` calls so far (page id paired with `b.retry` at the
call) and the files written so far. -/
def introLoop (src : String → Nat → DResp) (createOk : Bool)
    (head : String → Bool) (pageFuel : Nat) :
    Nat → Nat → Int → List (String × Int) → List String →
    Option (Nat × Int × List (String × Int) × List String)
  | 0, _, _, _, _ => none
  | fuel + 1, n, retry, calls, files =>
    let pg := "I" ++ toString n
    if head pg then
      match downloadPage (src pg) createOk pageFuel retry 0 with
      | none => none
      | some out =>
        introLoop src createOk head pageFuel fuel (n + 1) out.retry
          (calls ++ [(pg, retry)])
          (files ++ if out.written then [pg ++ ".jpg"] else [])
    else
      some (n, retry, calls, files)

/-- Sequential page downloads of the direct-mode `downloadBook`: each
page is downloaded with the current `b.retry` (there is no reset between
pages in this file — only a successful `downloadPage` resets it). -/
def runPages (src : String → Nat → DResp) (createOk : Bool) (pageFuel : Nat) :
    List String → Int → List (String × Int) → List String →
    Option (Int × List (String × Int) × List String)
  | [], retry, calls, files => some (retry, calls, files)
  | pg :: rest, retry, calls, files =>
    match downloadPage (src pg) createOk pageFuel retry 0 with
    | none => none
    | some out =>
      runPages src createOk pageFuel rest out.retry (calls ++ [(pg, retry)])
        (files ++ if out.written then [pg ++ ".jpg"] else [])

/-- Result of a direct-mode `downloadBook` run: final `b.retry`, the
`downloadPage` calls in order (page id, `b.retry` at the call), the page
files written, the number of intro pages found, the pages handed to the
PDF in order, and the PDF file name. -/
structure DirectRunOut where
  retry : Int
  calls : List (String × Int)
  files : List String
  introCount : Nat
  pdf : List String
  pdfName : String
deriving DecidableEq

/-- Direct-mode `downloadBook` (second file, lines 204-295): resolve the
length with `findBookLength` when it is 0, download `C1`, probe and
download the intro pages, download pages `1..length`, download `C3`, then
assemble the PDF adding each page file only if it exists on disk
(`os.Stat`), in the order front cover, intro pages, numbered pages, back
cover, and save it as `id + ".pdf"`. -/
def downloadBook (src : String → Nat → DResp) (head : String → Bool)
    (createOk : Bool) (lenFuel introFuel pageFuel : Nat) (id : String)
    (length0 : Nat) (retry0 : Int) : Option DirectRunOut :=
  match (if length0 = 0 then
          (findBookLength (fun j => isOk (src (toString j) 0)) lenFuel 100 100).map
            Int.toNat
         else some length0) with
  | none => none
  | some length =>
    match downloadPage (src "C1") createOk pageFuel retry0 0 with
    | none => none
    | some outC1 =>
      match introLoop src createOk head pageFuel introFuel 1 outC1.retry
          [("C1", retry0)] (if outC1.written then ["C1.jpg"] else []) with
      | none => none
      | some (n, retry1, calls1, files1) =>
        let numbered := (List.range length).map (fun i => toString (i + 1))
        match runPages src createOk pageFuel numbered retry1 calls1 files1 with
        | none => none
        | some (retry2, calls2, files2) =>
          match downloadPage (src "C3") createOk pageFuel retry2 0 with
          | none => none
          | some outC3 =>
            let files3 := files2 ++ if outC3.written then ["C3.jpg"] else []
            let introPages := (List.range (n - 1)).map
              (fun i => "I" ++ toString (i + 1))
            let pdf :=
              (if files3.contains "C1.jpg" then ["C1"] else []) ++
              introPages.filter (fun p => files3.contains (p ++ ".jpg")) ++
              numbered.filter (fun p => files3.contains (p ++ ".jpg")) ++
              (if files3.contains "C3.jpg" then ["C3"] else [])
            some ⟨outC3.retry, calls2 ++ [("C3", retry2)], files3, n - 1,
              pdf, id ++ ".pdf"⟩

end Direct

/-! Concrete sources and helper notions used by the theorems below. -/

/-- C6 counter-model source: every tile request answers HTTP 200 with a
body that does not decode as an image. -/
def badBodySrc : Nat → Nat → TResp := fun _ _ => .status 200 .bad

/-- Transient (retry-eligible) failure of a tiled fetch: a transport
error or a status other than 200 and 401. -/
def isTransientFail : TResp → Bool
  | .err => true
  | .status c _ => decide (c ≠ 200 ∧ c ≠ 401)

/-- Expected pastes of one fully successful row of uniform `w × h` tiles. -/
def rowPastes (r C w h : Nat) : List Paste :=
  (List.range C).map (fun c => ⟨c, r, c * w, r * h, w, h⟩)

/-- Expected pastes of a fully successful uniform `R × C` page, row-major. -/
def gridPastes (R C w h : Nat) : List Paste :=
  (List.range R).flatMap (fun r => rowPastes r C w h)

/-- Pastes of the uniform tiles at columns `c, c+1, ...` (`n` of them) of
row `r` — a recursion-friendly form of a suffix of `rowPastes`. -/
def rowSegFrom (r w h : Nat) : Nat → Nat → List Paste
  | _, 0 => []
  | c, n + 1 => ⟨c, r, c * w, r * h, w, h⟩ :: rowSegFrom r w h (c + 1) n

/-- Pastes of the uniform rows `r, r+1, ...` (`m` of them) — a
recursion-friendly form of a suffix of `gridPastes`. -/
def gridSegFrom (C w h : Nat) : Nat → Nat → List Paste
  | _, 0 => []
  | r, m + 1 => rowSegFrom r w h 0 C ++ gridSegFrom C w h (r + 1) m

/-- Tiled source where every request (any page, any tile) succeeds with a
4 × 4 image. -/
def allOkTiledSrc : String → Nat → Nat → TResp :=
  fun _ _ _ => .status 200 (.img 4 4)

/-- Tiled source matching the original C7 premise: requests for the intro
pages `I1` and `I2` (and for every cover and numbered page) succeed, while
any request for `I3` fails with 404 — intro-page existence probes succeed
exactly for `I1` and `I2` and fail for `I3`. -/
def introTiledSrc : String → Nat → Nat → TResp :=
  fun pg _ _ => if pg = "I3" then .status 404 .bad else .status 200 (.img 4 4)

/-- Direct source where every request succeeds and the body reads fine. -/
def allOkDirectSrc : String → Nat → DResp := fun _ _ => .status 200 true

theorem findBookLength_go (N : Int) :
    ∀ (fuel : Nat) (j delta : Int),
      (delta = 1 ∨ delta = 10 ∨ delta = 100) →
      delta ≤ j → j - delta ≤ N →
      (N + delta - j).toNat +
        (if delta = 100 then 2 else if delta = 10 then 1 else 0) < fuel →
      findBookLength (fun i => decide (1 ≤ i ∧ i ≤ N)) fuel j delta = some N := by
  intro fuel
  induction fuel with
  | zero =>
    intro j delta _ _ _ hm
    omega
  | succ fuel ih =>
    intro j delta hdelta hdj hjN hm
    rcases hdelta with h | h | h <;> subst h
    · by_cases hv : 1 ≤ j ∧ j ≤ N
      · have hvd : decide (1 ≤ j ∧ j ≤ N) = true := by simpa using hv
        simp only [findBookLength, hvd, if_true]
        exact ih (j + 1) 1 (Or.inl rfl) (by omega) (by omega) (by simp at hm ⊢; omega)
      · have hvd : decide (1 ≤ j ∧ j ≤ N) = false := by
          simpa using hv
        simp only [findBookLength, hvd, Bool.false_eq_true, if_false, if_pos rfl]
        exact congrArg some (by omega)
    · by_cases hv : 1 ≤ j ∧ j ≤ N
      · have hvd : decide (1 ≤ j ∧ j ≤ N) = true := by simpa using hv
        simp only [findBookLength, hvd, if_true]
        refine ih (j + 10) 10 (Or.inr (Or.inl rfl)) (by omega) (by omega) ?_
        simp only [show ((10 : Int) = 100) = False by norm_num,
          show ((10 : Int) = 10) = True by norm_num, if_false, if_true] at hm ⊢
        omega
      · have hvd : decide (1 ≤ j ∧ j ≤ N) = false := by
          simpa using hv
        have h101 : ((10 : Int) = 1) = False := by norm_num
        simp only [findBookLength, hvd, Bool.false_eq_true, if_false, h101]
        have hdiv : (10 : Int) / 10 = 1 := by norm_num
        simp only [hdiv, show ¬((1 : Int) < 1) by norm_num, if_false]
        refine ih (j - 10 + 1) 1 (Or.inl rfl) (by omega) (by omega) ?_
        simp only [show ((10 : Int) = 100) = False by norm_num,
          show ((10 : Int) = 10) = True by norm_num, if_false, if_true] at hm
        simp only [show ((1 : Int) = 100) = False by norm_num,
          show ((1 : Int) = 10) = False by norm_num, if_false]
        omega
    · by_cases hv : 1 ≤ j ∧ j ≤ N
      · have hvd : decide (1 ≤ j ∧ j ≤ N) = true := by simpa using hv
        simp only [findBookLength, hvd, if_true]
        refine ih (j + 100) 100 (Or.inr (Or.inr rfl)) (by omega) (by omega) ?_
        simp only [show ((100 : Int) = 100) = True by norm_num, if_true] at hm ⊢
        omega
      · have hvd : decide (1 ≤ j ∧ j ≤ N) = false := by
          simpa using hv
        have h1001 : ((100 : Int) = 1) = False := by norm_num
        simp only [findBookLength, hvd, Bool.false_eq_true, if_false, h1001]
        have hdiv : (100 : Int) / 10 = 10 := by norm_num
        simp only [hdiv, show ¬((10 : Int) < 1) by norm_num, if_false]
        refine ih (j - 100 + 10) 10 (Or.inr (Or.inl rfl)) (by omega) (by omega) ?_
        simp only [show ((100 : Int) = 100) = True by norm_num, if_true] at hm
        simp only [show ((10 : Int) = 100) = False by norm_num,
          show ((10 : Int) = 10) = True by norm_num, if_false, if_true]
        omega

/-- C3: for every `N ≥ 1`, against a remote source whose page probes
succeed exactly for pages `1..N`, `findBookLength` terminates (any fuel of
at least `N + 3` loop iterations suffices) and returns exactly `N`; this
covers both `N < 100` (degenerate contraction from the initial cursor 100)
and `N` arbitrarily far beyond 100, the loop returning `j - 1` when the
step has been floored to 1 and the probe at the cursor `j` fails. -/
theorem C3_findBookLength_exact (N : Int) (hN : 1 ≤ N) (fuel : Nat)
    (hfuel : N.toNat + 3 ≤ fuel) :
    findBookLength (fun i => decide (1 ≤ i ∧ i ≤ N)) fuel 100 100 = some N := by
  refine findBookLength_go N fuel 100 100 (Or.inr (Or.inr rfl)) (by norm_num)
    (by omega) ?_
  simp only [show ((100 : Int) = 100) = True by norm_num, if_true]
  omega

/-- Witness for C3 at the concrete book length 5 (shorter than the initial
cursor 100, hence through the degenerate contraction path). -/
theorem C3_witness :
    findBookLength (fun i => decide (1 ≤ i ∧ i ≤ (5 : Int))) 8 100 100 = some 5 :=
  C3_findBookLength_exact 5 (by norm_num) 8 (by decide)

/-- C6 (the code violates this claim): against a source that always
returns HTTP 200 with an undecodable body, the tiled assembly loop of a
1 × 1 grid never terminates, whatever the retry budget — the `continue`
after a failed body read or decode skips the `col++` of the inner loop
and leaves the retry counter untouched, so the identical tile is
re-requested forever.  Formally: the fuel-indexed loop exhausts every
fuel bound. -/
theorem C6_badBody_loops_forever :
    ∀ (fuel : Nat) (retry : Int) (reqs : Nat),
      Tiled.downloadPageLoop badBodySrc 1 1 fuel 0 0 0 0 retry [] reqs = none := by
  intro fuel
  induction fuel with
  | zero => intro retry reqs; rfl
  | succ fuel ih =>
    intro retry reqs
    have hstep : Tiled.downloadPageLoop badBodySrc 1 1 (fuel + 1) 0 0 0 0 retry [] reqs
        = Tiled.downloadPageLoop badBodySrc 1 1 fuel 0 0 0 0 retry [] (reqs + 1) := by
      simp [Tiled.downloadPageLoop, badBodySrc]
    rw [hstep]
    exact ih retry (reqs + 1)

theorem direct_downloadPage_allFail (src : Nat → DResp) (createOk : Bool)
    (hfail : ∀ a, ∃ c b, src a = DResp.status c b ∧ c ≠ 200) :
    ∀ (n : Nat) (retry : Int), 0 ≤ retry → retry.toNat = n →
      ∀ (a fuel : Nat), n + 1 < fuel →
      Direct.downloadPage src createOk fuel retry a = some ⟨false, -1, n + 2⟩ := by
  intro n
  induction n with
  | zero =>
    intro retry h0 htn a fuel hf
    have hr0 : retry = 0 := by omega
    subst hr0
    obtain ⟨f1, rfl⟩ : ∃ f1, fuel = f1 + 1 := ⟨fuel - 1, by omega⟩
    obtain ⟨f2, rfl⟩ : ∃ f2, f1 = f2 + 1 := ⟨f1 - 1, by omega⟩
    obtain ⟨c, b, hsrc, hc⟩ := hfail a
    obtain ⟨c', b', hsrc', hc'⟩ := hfail (a + 1)
    simp only [Direct.downloadPage, hsrc, hsrc', hc, hc', if_false,
      show (0:Int) - 1 = -1 from rfl]
    norm_num
  | succ n ih =>
    intro retry h0 htn a fuel hf
    have hr : retry = (n : Int) + 1 := by omega
    subst hr
    obtain ⟨f1, rfl⟩ : ∃ f1, fuel = f1 + 1 := ⟨fuel - 1, by omega⟩
    obtain ⟨c, b, hsrc, hc⟩ := hfail a
    have hrec := ih ((n : Int) + 1 - 1) (by omega) (by omega) (a + 1) f1 (by omega)
    have hpos : (0 : Int) ≤ (n : Int) + 1 := by omega
    simp only [Direct.downloadPage, hsrc, hc, if_false, hpos, if_true, hrec]

theorem tiled_loop_failstep (src : Nat → Nat → TResp) (cols rows fuel : Nat)
    (row col xOff yOff : Nat) (retry : Int) (pastes : List Paste) (reqs : Nat)
    (hrow : row < rows) (hcol : col < cols)
    (hfail : src col row = TResp.err ∨ ∃ code body,
      src col row = TResp.status code body ∧ code ≠ 200 ∧ code ≠ 401) :
    Tiled.downloadPageLoop src cols rows (fuel + 1) row col xOff yOff retry
      pastes reqs
    = if 0 ≤ retry then
        Tiled.downloadPageLoop src cols rows fuel row col xOff yOff (retry - 1)
          pastes (reqs + 1)
      else
        Tiled.downloadPageLoop src cols rows fuel row (col + 1) xOff yOff retry
          pastes (reqs + 1) := by
  rcases hfail with h | ⟨code, body, h, h200, h401⟩
  · simp only [Tiled.downloadPageLoop, hrow, if_true, hcol, h]
  · simp only [Tiled.downloadPageLoop, hrow, if_true, hcol, h, h200, h401,
      if_false]

/-- C1 (amended): only the tiled-mode page assembler escalates an auth
fault, and only for status 401: there `os.Exit(1)` fires at once, so the
tile loop ends with exactly that one request issued and the retry budget
untouched (first conjunct).  A 403 in tiled mode falls through to the
ordinary transient-retry path instead: the same tile is retried with the
budget decremented while `retry >= 0`, else abandoned (second conjunct).
In direct mode both a 401 and a 403 are likewise retried like transient
faults: an always-401 or always-403 source is re-requested until the
budget is exhausted, `budget + 2` requests in total, ending at
budget -1 (third conjunct). -/
theorem C1_auth_fault_behavior :
    (∀ (src : Nat → Nat → TResp) (cols rows fuel row col xOff yOff : Nat)
        (retry : Int) (pastes : List Paste) (reqs : Nat) (body : TBody),
        row < rows → col < cols → src col row = TResp.status 401 body →
        Tiled.downloadPageLoop src cols rows (fuel + 1) row col xOff yOff retry
          pastes reqs = some (.exited pastes retry (reqs + 1)))
    ∧ (∀ (src : Nat → Nat → TResp) (cols rows fuel row col xOff yOff : Nat)
        (retry : Int) (pastes : List Paste) (reqs : Nat) (body : TBody),
        row < rows → col < cols → src col row = TResp.status 403 body →
        Tiled.downloadPageLoop src cols rows (fuel + 1) row col xOff yOff retry
          pastes reqs
        = if 0 ≤ retry then
            Tiled.downloadPageLoop src cols rows fuel row col xOff yOff
              (retry - 1) pastes (reqs + 1)
          else
            Tiled.downloadPageLoop src cols rows fuel row (col + 1) xOff yOff
              retry pastes (reqs + 1))
    ∧ (∀ (retry : Int), 0 ≤ retry →
        ∀ (src : Nat → DResp) (createOk : Bool) (fuel : Nat) (code : Nat),
        code = 401 ∨ code = 403 →
        (∀ a, src a = DResp.status code true) → retry.toNat + 1 < fuel →
        Direct.downloadPage src createOk fuel retry 0
          = some ⟨false, -1, retry.toNat + 2⟩) := by
  refine ⟨?_, ?_, ?_⟩
  · intro src cols rows fuel row col xOff yOff retry pastes reqs body hrow hcol hsrc
    simp [Tiled.downloadPageLoop, hrow, hcol, hsrc]
  · intro src cols rows fuel row col xOff yOff retry pastes reqs body hrow hcol hsrc
    exact tiled_loop_failstep src cols rows fuel row col xOff yOff retry pastes
      reqs hrow hcol (Or.inr ⟨403, body, hsrc, by norm_num, by norm_num⟩)
  · intro retry h0 src createOk fuel code hcode hsrc hf
    refine direct_downloadPage_allFail src createOk ?_ retry.toNat retry h0 rfl
      0 fuel hf
    intro a
    rcases hcode with h | h <;> subst h
    · exact ⟨401, true, hsrc a, by norm_num⟩
    · exact ⟨403, true, hsrc a, by norm_num⟩

/-- Witness for the amended C1: a 401 at tile (0,0) of a 1 × 1 grid ends
the tiled loop at once with the budget still 2; a 403 at the same tile
takes the retry branch (same tile, budget 2 down to 1); an all-403 direct
source is retried 4 times and ends at budget -1. -/
theorem C1_auth_fault_behavior_witness :
    Tiled.downloadPageLoop (fun _ _ => TResp.status 401 .bad) 1 1 5 0 0 0 0 2 [] 0
      = some (.exited [] 2 1)
    ∧ Tiled.downloadPageLoop (fun _ _ => TResp.status 403 .bad) 1 1 5 0 0 0 0 2 [] 0
      = Tiled.downloadPageLoop (fun _ _ => TResp.status 403 .bad) 1 1 4 0 0 0 0 1 [] 1
    ∧ Direct.downloadPage (fun _ => DResp.status 403 true) false 10 2 0
      = some ⟨false, -1, 4⟩ := by
  refine ⟨C1_auth_fault_behavior.1 _ 1 1 4 0 0 0 0 2 [] 0 .bad (by decide)
      (by decide) rfl, ?_,
    C1_auth_fault_behavior.2.2 2 (by decide) _ false 10 403 (Or.inr rfl)
      (fun _ => rfl) (by decide)⟩
  have h := C1_auth_fault_behavior.2.1 (fun _ _ => TResp.status 403 .bad) 1 1 4
    0 0 0 0 2 [] 0 .bad (by decide) (by decide) rfl
  simpa using h

/-- C1 counterexample: in direct mode a request answered with 401 does
not stop the run and does consume the retry budget — the downloader
issues three further requests for the same page (4 in total) and drives
the budget from 2 down to -1, contradicting the claim that no further
request is issued after an auth-fault status. -/
theorem C1_counterexample :
    Direct.downloadPage (fun _ => DResp.status 401 true) true 10 2 0
      = some ⟨false, -1, 4⟩ := by
  decide

theorem tiled_runPages_retry (src : String → Nat → Nat → TResp)
    (createOk : Bool) (fuel : Nat) :
    ∀ (pgs : List String) (b : Book) (calls : List (String × Book))
      (b' : Book) (calls' : List (String × Book)) (ab : Bool),
      Tiled.runPages src createOk fuel pgs b calls = some (b', calls', ab) →
      b.retry = 2 → (∀ p ∈ calls, (p.2 : Book).retry = 2) →
      (∀ p ∈ calls', (p.2 : Book).retry = 2) ∧ (ab = false → b'.retry = 2) := by
  intro pgs
  induction pgs with
  | nil =>
    intro b calls b' calls' ab h hb hc
    simp only [Tiled.runPages, Option.some_inj] at h
    obtain ⟨rfl, rfl, rfl⟩ := h
    exact ⟨hc, fun _ => hb⟩
  | cons pg rest ih =>
    intro b calls b' calls' ab h hb hc
    simp only [Tiled.runPages] at h
    cases hdp : Tiled.downloadPage (src pg) createOk b.imgSize b.cols b.rows pg
        b.retry fuel with
    | none => rw [hdp] at h; exact absurd h (by simp)
    | some out =>
      rw [hdp] at h
      have hmem : ∀ p ∈ calls ++ [(pg, b)], (p.2 : Book).retry = 2 := by
        intro p hp
        rcases List.mem_append.1 hp with hp | hp
        · exact hc p hp
        · simp only [List.mem_singleton] at hp
          subst hp
          exact hb
      by_cases hex : out.exited
      · simp only [hex, if_true, Option.some_inj] at h
        obtain ⟨rfl, rfl, rfl⟩ := h
        exact ⟨hmem, by intro hfalse; cases hfalse⟩
      · simp only [hex, if_false, Bool.false_eq_true] at h
        exact ih { b with retry := 2 } (calls ++ [(pg, b)]) b' calls' ab h rfl hmem

/-- C2 (amended): a page whose remote source fails on every attempt with
a non-success, non-auth status is abandoned after exactly `budget + 2`
fetch attempts (4 with the default budget 2), because the failure branch
retries while `retry >= 0`, including at 0.  The tiled orchestrator does
reset the budget to its default 2 before every page regardless of the
previous page's outcome, but the direct-mode downloader resets it only at
the end of a successful page, so there an abandoned page hands the
exhausted budget (-1) to the following pages. -/
theorem C2_retry_budget_behavior :
    (∀ (retry : Int), 0 ≤ retry →
      ∀ (src : Nat → DResp) (createOk : Bool) (fuel : Nat),
      (∀ a, ∃ c b, src a = DResp.status c b ∧ c ≠ 200) →
      retry.toNat + 1 < fuel →
      Direct.downloadPage src createOk fuel retry 0
        = some ⟨false, -1, retry.toNat + 2⟩)
    ∧ (∀ (retry : Int) (src : Nat → DResp) (fuel : Nat),
      src 0 = DResp.status 200 true → 0 < fuel →
      Direct.downloadPage src true fuel retry 0 = some ⟨true, 2, 1⟩)
    ∧ (∀ (src : String → Nat → Nat → TResp) (createOk : Bool) (fuel : Nat)
        (b : Book) (out : Tiled.RunOut),
      b.retry = 2 → Tiled.downloadBook src createOk fuel b = some out →
      ∀ p ∈ out.calls, (p.2 : Book).retry = 2) := by
  refine ⟨?_, ?_, ?_⟩
  · intro retry h0 src createOk fuel hfail hf
    exact direct_downloadPage_allFail src createOk hfail retry.toNat retry h0 rfl 0
      fuel hf
  · intro retry src fuel hsrc hfuel
    obtain ⟨f1, rfl⟩ : ∃ f1, fuel = f1 + 1 := ⟨fuel - 1, by omega⟩
    simp [Direct.downloadPage, hsrc]
  · intro src createOk fuel b out hb hrun p hp
    unfold Tiled.downloadBook at hrun
    cases hrp : Tiled.runPages src createOk fuel
        ("C1" :: (List.range b.length).map (fun i => toString (i + 1))) b [] with
    | none => rw [hrp] at hrun; exact absurd hrun (by simp)
    | some res =>
      obtain ⟨b1, calls, ab⟩ := res
      have hcalls := tiled_runPages_retry src createOk fuel _ b [] b1 calls ab hrp
        hb (by intro q hq; cases hq)
      rw [hrp] at hrun
      cases ab with
      | true =>
        simp only [Option.some_inj] at hrun
        subst hrun
        exact hcalls.1 p hp
      | false =>
        simp only at hrun
        cases hdp : Tiled.downloadPage (src "C3") createOk b1.imgSize b1.cols
            b1.rows "C3" b1.retry fuel with
        | none => rw [hdp] at hrun; exact absurd hrun (by simp)
        | some o =>
          rw [hdp] at hrun
          have hb1 : b1.retry = 2 := hcalls.2 rfl
          have hmem : ∀ q ∈ calls ++ [("C3", b1)], (q.2 : Book).retry = 2 := by
            intro q hq
            rcases List.mem_append.1 hq with hq | hq
            · exact hcalls.1 q hq
            · simp only [List.mem_singleton] at hq
              subst hq
              exact hb1
          by_cases hex : o.exited
          · simp only [hex, if_true, Option.some_inj] at hrun
            subst hrun
            exact hmem p hp
          · simp only [hex, if_false, Bool.false_eq_true, Option.some_inj] at hrun
            subst hrun
            exact hmem p hp

/-- Witness for the amended C2: an all-503 direct page takes 4 attempts
and ends with budget -1; a direct page succeeding at once resets the
budget to 2; in a tiled run over one numbered page every `downloadPage`
call starts with budget 2. -/
theorem C2_retry_budget_behavior_witness :
    Direct.downloadPage (fun _ => DResp.status 503 true) false 10 2 0
      = some ⟨false, -1, 4⟩
    ∧ Direct.downloadPage (fun _ => DResp.status 200 true) true 3 7 0
      = some ⟨true, 2, 1⟩
    ∧ (∀ p ∈ (Tiled.RunOut.mk ⟨"b", 1, 1, 1, (4, 4), 2⟩
        [("C1", ⟨"b", 1, 1, 1, (4, 4), 2⟩), ("1", ⟨"b", 1, 1, 1, (4, 4), 2⟩),
         ("C3", ⟨"b", 1, 1, 1, (4, 4), 2⟩)]
        ["C1", "1", "C3"] false).calls, (p.2 : Book).retry = 2) :=
  ⟨C2_retry_budget_behavior.1 2 (by decide) _ false 10
      (fun a => ⟨503, true, rfl, by norm_num⟩) (by decide),
   C2_retry_budget_behavior.2.1 7 _ 3 rfl (by decide),
   C2_retry_budget_behavior.2.2 allOkTiledSrc true 10 ⟨"b", 1, 1, 1, (4, 4), 2⟩ _
      rfl (by decide)⟩

/-- C2 counterexample: with the default budget 2 a direct-mode page whose
source always answers 500 is abandoned after 4 attempts, not the claimed
3; and in the surrounding direct-mode run the next pages are then called
with the budget still at -1, not restored to 2 — the run's call list is
`("C1", 2), ("1", -1), ("2", -1), ("C3", -1)`. -/
theorem C2_counterexample :
    Direct.downloadPage (fun _ => DResp.status 500 true) true 10 2 0
      = some ⟨false, -1, 4⟩
    ∧ Direct.downloadBook (fun _ _ => DResp.status 500 true) (fun _ => false)
        true 0 3 10 "b" 2 2
      = some ⟨-1, [("C1", 2), ("1", -1), ("2", -1), ("C3", -1)], [], 0, [],
          "b.pdf"⟩ := by
  constructor
  · decide
  · decide

theorem probeAxis_exact (R : Nat) (dim : Nat → Nat) (probe : Nat → Option Nat)
    (hp : ∀ i, probe i = if i < R then some (dim i) else none) :
    ∀ (n k acc fuel : Nat), k + n = R → n < fuel →
      probeAxis probe fuel k acc
        = some (R, acc + ((List.range n).map (fun i => dim (k + i))).sum) := by
  intro n
  induction n with
  | zero =>
    intro k acc fuel hk hf
    obtain ⟨f1, rfl⟩ : ∃ f1, fuel = f1 + 1 := ⟨fuel - 1, by omega⟩
    have hkR : k = R := by omega
    subst hkR
    have hpk : probe k = none := by
      rw [hp k]
      simp
    simp [probeAxis, hpk]
  | succ n ih =>
    intro k acc fuel hk hf
    obtain ⟨f1, rfl⟩ : ∃ f1, fuel = f1 + 1 := ⟨fuel - 1, by omega⟩
    have hpk : probe k = some (dim k) := by
      rw [hp k]
      simp [show k < R by omega]
    have hrec := ih (k + 1) (acc + dim k) f1 (by omega) (by omega)
    simp only [probeAxis, hpk]
    rw [hrec]
    have hfun : (fun i => dim (k + 1 + i)) = (fun i => dim (k + (i + 1))) :=
      funext (fun i => by rw [show k + 1 + i = k + (i + 1) from by omega])
    rw [List.range_succ_eq_map, List.map_cons, List.sum_cons, List.map_map]
    simp only [Function.comp_def, Nat.succ_eq_add_one, Nat.add_zero, hfun,
      Nat.add_assoc]
    have hshift : (fun i => dim (k + (1 + i))) = (fun i => dim (k + (i + 1))) :=
      funext (fun i => by rw [show k + (1 + i) = k + (i + 1) from by omega])
    rw [hshift]

/-- C4: for every `R > 0` and `C > 0`, against a source whose tile probes
succeed exactly for row indices below `R` (at column 0) and column
indices below `C` (at row 0), the grid prober returns `rows = R` and
`cols = C` — each the number of successful linear probes from index 0,
the first failure being the terminal signal, with no retry — and the
accumulated page height (resp. width) is the sum of the probed row tiles'
pixel heights (resp. column tiles' pixel widths). -/
theorem C4_grid_prober_exact (R C : Nat) (_hR : 0 < R) (_hC : 0 < C)
    (hgt wdt : Nat → Nat) (rowProbe colProbe : Nat → Option Nat)
    (hrp : ∀ i, rowProbe i = if i < R then some (hgt i) else none)
    (hcp : ∀ i, colProbe i = if i < C then some (wdt i) else none)
    (fuel : Nat) (hfR : R < fuel) (hfC : C < fuel) :
    findRowsColsAndImgSize rowProbe colProbe fuel
      = some ⟨R, C, ((List.range C).map wdt).sum, ((List.range R).map hgt).sum⟩ := by
  have h1 := probeAxis_exact R hgt rowProbe hrp R 0 0 fuel (by omega) hfR
  have h2 := probeAxis_exact C wdt colProbe hcp C 0 0 fuel (by omega) hfC
  simp only [Nat.zero_add] at h1 h2
  simp [findRowsColsAndImgSize, h1, h2]

/-- Witness for C4: a 2 × 3 grid of 5-wide, 4-tall tiles gives
`rows = 2`, `cols = 3`, width 15 and height 8. -/
theorem C4_witness :
    findRowsColsAndImgSize (fun i => if i < 2 then some 4 else none)
      (fun i => if i < 3 then some 5 else none) 4
      = some ⟨2, 3, 15, 8⟩ :=
  C4_grid_prober_exact 2 3 (by decide) (by decide) (fun _ => 4) (fun _ => 5)
    _ _ (fun _ => rfl) (fun _ => rfl) 4 (by decide) (by decide)

theorem rowSegFrom_eq (r w h : Nat) :
    ∀ (n c : Nat), rowSegFrom r w h c n
      = (List.range n).map (fun i => ⟨c + i, r, (c + i) * w, r * h, w, h⟩) := by
  intro n
  induction n with
  | zero => intro c; rfl
  | succ n ih =>
    intro c
    rw [show rowSegFrom r w h c (n + 1)
        = ⟨c, r, c * w, r * h, w, h⟩ :: rowSegFrom r w h (c + 1) n from rfl]
    rw [ih (c + 1), List.range_succ_eq_map, List.map_cons, List.map_map]
    have hfun : ((fun i => (⟨c + i, r, (c + i) * w, r * h, w, h⟩ : Paste)) ∘ Nat.succ)
        = fun i => (⟨c + 1 + i, r, (c + 1 + i) * w, r * h, w, h⟩ : Paste) := by
      funext i
      simp only [Function.comp_def, Nat.succ_eq_add_one]
      rw [show c + (i + 1) = c + 1 + i from by omega]
    rw [hfun]
    simp

theorem rowSegFrom_eq_rowPastes (r C w h : Nat) :
    rowSegFrom r w h 0 C = rowPastes r C w h := by
  rw [rowSegFrom_eq]
  unfold rowPastes
  simp

theorem gridSegFrom_eq (C w h : Nat) :
    ∀ (m r : Nat), gridSegFrom C w h r m
      = (List.range m).flatMap (fun k => rowPastes (r + k) C w h) := by
  intro m
  induction m with
  | zero => intro r; rfl
  | succ m ih =>
    intro r
    rw [show gridSegFrom C w h r (m + 1)
        = rowSegFrom r w h 0 C ++ gridSegFrom C w h (r + 1) m from rfl]
    rw [ih (r + 1), rowSegFrom_eq_rowPastes, List.range_succ_eq_map,
      List.flatMap_cons, List.flatMap_map]
    simp only [Function.comp_def, Nat.succ_eq_add_one, Nat.add_zero]
    have hfun : (fun a => rowPastes (r + (a + 1)) C w h)
        = fun k => rowPastes (r + 1 + k) C w h := by
      funext k
      rw [show r + (k + 1) = r + 1 + k from by omega]
    rw [hfun]

theorem gridSegFrom_eq_gridPastes (R C w h : Nat) :
    gridSegFrom C w h 0 R = gridPastes R C w h := by
  rw [gridSegFrom_eq]
  unfold gridPastes
  simp

theorem tiled_loop_success (src : Nat → Nat → TResp) (cols rows fuel : Nat)
    (row col xOff yOff : Nat) (retry : Int) (pastes : List Paste) (reqs : Nat)
    (dx dy : Nat) (hrow : row < rows) (hcol : col < cols)
    (hsrc : src col row = TResp.status 200 (.img dx dy)) :
    Tiled.downloadPageLoop src cols rows (fuel + 1) row col xOff yOff retry
      pastes reqs
    = if col = cols - 1 then
        Tiled.downloadPageLoop src cols rows fuel row (col + 1) 0 (yOff + dy)
          retry (pastes ++ [⟨col, row, xOff, yOff, dx, dy⟩]) (reqs + 1)
      else
        Tiled.downloadPageLoop src cols rows fuel row (col + 1) (xOff + dx) yOff
          retry (pastes ++ [⟨col, row, xOff, yOff, dx, dy⟩]) (reqs + 1) := by
  simp only [Tiled.downloadPageLoop, hrow, if_true, hcol, hsrc]

theorem tiled_loop_rowadv (src : Nat → Nat → TResp) (cols rows fuel : Nat)
    (row col xOff yOff : Nat) (retry : Int) (pastes : List Paste) (reqs : Nat)
    (hrow : row < rows) (hcol : ¬col < cols) :
    Tiled.downloadPageLoop src cols rows (fuel + 1) row col xOff yOff retry
      pastes reqs
    = Tiled.downloadPageLoop src cols rows fuel (row + 1) 0 xOff yOff retry
        pastes reqs := by
  simp only [Tiled.downloadPageLoop, hrow, if_true, hcol, if_false]

theorem tiled_row_step (src : Nat → Nat → TResp) (C R w h : Nat)
    (hsrc : ∀ c r, c < C → r < R → src c r = TResp.status 200 (.img w h)) :
    ∀ (n c : Nat), c + (n + 1) = C → ∀ (fuel r : Nat), r < R →
      ∀ (retry : Int) (pastes : List Paste) (reqs : Nat),
      Tiled.downloadPageLoop src C R (n + 2 + fuel) r c (c * w) (r * h) retry
        pastes reqs
      = Tiled.downloadPageLoop src C R fuel (r + 1) 0 0 ((r + 1) * h) retry
          (pastes ++ rowSegFrom r w h c (n + 1)) (reqs + (n + 1)) := by
  intro n
  induction n with
  | zero =>
    intro c hc fuel r hr retry pastes reqs
    have hcC : c < C := by omega
    have hlast : c = C - 1 := by omega
    rw [show 0 + 2 + fuel = (fuel + 1) + 1 from by omega]
    rw [tiled_loop_success src C R (fuel + 1) r c (c * w) (r * h) retry pastes
      reqs w h hr hcC (hsrc c r hcC hr)]
    rw [if_pos hlast]
    rw [tiled_loop_rowadv src C R fuel r (c + 1) 0 (r * h + h) retry
      (pastes ++ [(⟨c, r, c * w, r * h, w, h⟩ : Paste)]) (reqs + 1) hr (by omega)]
    rw [show r * h + h = (r + 1) * h from (Nat.succ_mul r h).symm]
    rfl
  | succ n ih =>
    intro c hc fuel r hr retry pastes reqs
    have hcC : c < C := by omega
    have hnotlast : ¬c = C - 1 := by omega
    rw [show n + 1 + 2 + fuel = (n + 2 + fuel) + 1 from by omega]
    rw [tiled_loop_success src C R (n + 2 + fuel) r c (c * w) (r * h)
      retry pastes reqs w h hr hcC (hsrc c r hcC hr)]
    rw [if_neg hnotlast]
    rw [show c * w + w = (c + 1) * w from (Nat.succ_mul c w).symm]
    rw [ih (c + 1) (by omega) fuel r hr retry
      (pastes ++ [(⟨c, r, c * w, r * h, w, h⟩ : Paste)]) (reqs + 1)]
    rw [show rowSegFrom r w h c (n + 1 + 1)
        = ⟨c, r, c * w, r * h, w, h⟩ :: rowSegFrom r w h (c + 1) (n + 1) from rfl]
    rw [List.append_cons]
    rw [show reqs + 1 + (n + 1) = reqs + (n + 1 + 1) from by omega]
    simp

theorem tiled_all_rows (src : Nat → Nat → TResp) (C R w h : Nat)
    (hsrc : ∀ c r, c < C → r < R → src c r = TResp.status 200 (.img w h))
    (hC : 0 < C) :
    ∀ (m r : Nat), r + m = R → ∀ (fuel : Nat) (retry : Int)
      (pastes : List Paste) (reqs : Nat),
      Tiled.downloadPageLoop src C R (m * (C + 1) + 1 + fuel) r 0 0 (r * h)
        retry pastes reqs
      = some (.done (pastes ++ gridSegFrom C w h r m) retry (reqs + m * C)) := by
  intro m
  induction m with
  | zero =>
    intro r hrR fuel retry pastes reqs
    have hr : r = R := by omega
    have hstop : ¬r < R := by omega
    rw [show 0 * (C + 1) + 1 + fuel = fuel + 1 from by omega]
    simp only [Tiled.downloadPageLoop, hstop, if_false]
    simp [gridSegFrom]
  | succ m ih =>
    intro r hrR fuel retry pastes reqs
    have hr : r < R := by omega
    have hstep := tiled_row_step src C R w h hsrc (C - 1) 0 (by omega)
      (m * (C + 1) + 1 + fuel) r hr retry pastes reqs
    rw [show C - 1 + 1 = C from by omega] at hstep
    simp only [Nat.zero_mul] at hstep
    rw [show (m + 1) * (C + 1) + 1 + fuel
        = C - 1 + 2 + (m * (C + 1) + 1 + fuel) from by
      have : C - 1 + 1 = C := by omega
      nlinarith [this]]
    rw [hstep]
    rw [ih (r + 1) (by omega) fuel retry (pastes ++ rowSegFrom r w h 0 C)
      (reqs + C)]
    rw [show gridSegFrom C w h r (m + 1)
        = rowSegFrom r w h 0 C ++ gridSegFrom C w h (r + 1) m from rfl]
    rw [List.append_assoc, show reqs + C + m * C = reqs + (m + 1) * C from by
      ring]

/-- C5: for every `R > 0`, `C > 0` and uniform tile size `w × h`, if every
tile fetch succeeds then tiled-mode page assembly produces the raster of
size `(C*w, R*h)` with the tiles fetched in row-major order (rows outer,
columns inner) and tile `(r, c)` pasted at horizontal offset `c*w` and
vertical offset `r*h` — `gridPastes` lists exactly those pastes in that
order, the horizontal offset restarting at 0 on each new row and the
vertical offset advancing by `h` only after the last column of a row. -/
theorem C5_uniform_page_assembly (R C w h : Nat) (_hR : 0 < R) (hC : 0 < C)
    (src : Nat → Nat → TResp)
    (hsrc : ∀ c r, c < C → r < R → src c r = TResp.status 200 (.img w h))
    (pg : String) (retry : Int) :
    Tiled.downloadPage src true (C * w, R * h) C R pg retry (R * (C + 1) + 1)
      = some ⟨some ⟨pg ++ ".jpg", (C * w, R * h), gridPastes R C w h⟩, retry,
          R * C, false⟩ := by
  have hloop := tiled_all_rows src C R w h hsrc hC R 0 (by omega) 0 retry [] 0
  simp only [Nat.zero_mul, Nat.add_zero, Nat.zero_add, List.nil_append,
    gridSegFrom_eq_gridPastes] at hloop
  simp [Tiled.downloadPage, hloop]

/-- Witness for C5: a 2 × 2 grid of 3 × 2 tiles assembles into a 6 × 4
raster with the four tiles at offsets (0,0), (3,0), (0,2), (3,2). -/
theorem C5_witness :
    Tiled.downloadPage (fun _ _ => TResp.status 200 (.img 3 2)) true (6, 4)
      2 2 "p" 5 7
      = some ⟨some ⟨"p.jpg", (6, 4), gridPastes 2 2 3 2⟩, 5, 4, false⟩ :=
  C5_uniform_page_assembly 2 2 3 2 (by decide) (by decide) _
    (fun _ _ _ _ => rfl) "p" 5

theorem tiled_loop_done (src : Nat → Nat → TResp) (cols rows fuel : Nat)
    (row col xOff yOff : Nat) (retry : Int) (pastes : List Paste) (reqs : Nat)
    (hrow : ¬row < rows) :
    Tiled.downloadPageLoop src cols rows (fuel + 1) row col xOff yOff retry
      pastes reqs = some (.done pastes retry reqs) := by
  simp only [Tiled.downloadPageLoop, hrow, if_false]

theorem tiled_loop_allFail (src : Nat → Nat → TResp)
    (hsrc : ∀ c r, isTransientFail (src c r) = true) (C R : Nat) :
    ∀ (fuel row col xOff yOff : Nat) (retry : Int) (pastes : List Paste)
      (reqs : Nat),
      (retry + 1).toNat + (R - row) * (C + 1) + (C - col) < fuel →
      ∃ retryOut reqsOut,
        Tiled.downloadPageLoop src C R fuel row col xOff yOff retry pastes reqs
          = some (.done pastes retryOut reqsOut) := by
  have hdisj : ∀ c r, src c r = TResp.err ∨ ∃ code body,
      src c r = TResp.status code body ∧ code ≠ 200 ∧ code ≠ 401 := by
    intro c r
    cases h : src c r with
    | err => exact Or.inl rfl
    | status code body =>
      have hs := hsrc c r
      rw [h] at hs
      simp only [isTransientFail, decide_eq_true_eq] at hs
      exact Or.inr ⟨code, body, rfl, hs.1, hs.2⟩
  intro fuel
  induction fuel with
  | zero =>
    intro row col xOff yOff retry pastes reqs hm
    omega
  | succ fuel ih =>
    intro row col xOff yOff retry pastes reqs hm
    by_cases hrow : row < R
    · by_cases hcol : col < C
      · rw [tiled_loop_failstep src C R fuel row col xOff yOff retry pastes reqs
          hrow hcol (hdisj col row)]
        by_cases hret : (0 : Int) ≤ retry
        · rw [if_pos hret]
          refine ih row col xOff yOff (retry - 1) pastes (reqs + 1) ?_
          set P := (R - row) * (C + 1) with hP
          omega
        · rw [if_neg hret]
          refine ih row (col + 1) xOff yOff retry pastes (reqs + 1) ?_
          set P := (R - row) * (C + 1) with hP
          omega
      · rw [tiled_loop_rowadv src C R fuel row col xOff yOff retry pastes reqs
          hrow hcol]
        obtain ⟨k, hk⟩ : ∃ k, R - row = k + 1 := ⟨R - row - 1, by omega⟩
        have hk2 : R - (row + 1) = k := by omega
        refine ih (row + 1) 0 xOff yOff retry pastes reqs ?_
        rw [hk2]
        rw [hk] at hm
        rw [show (k + 1) * (C + 1) = k * (C + 1) + C + 1 from by ring] at hm
        have hc0 : C - col = 0 := by omega
        rw [hc0] at hm
        set P := k * (C + 1) with hP
        omega
    · exact ⟨retry, reqs, tiled_loop_done src C R fuel row col xOff yOff retry
        pastes reqs hrow⟩

theorem tiled_runPages_grid (src : String → Nat → Nat → TResp)
    (createOk : Bool) (fuel : Nat) :
    ∀ (pgs : List String) (b : Book) (calls : List (String × Book))
      (b' : Book) (calls' : List (String × Book)) (ab : Bool),
      Tiled.runPages src createOk fuel pgs b calls = some (b', calls', ab) →
      (b'.rows = b.rows ∧ b'.cols = b.cols ∧ b'.imgSize = b.imgSize) ∧
      ∀ p ∈ calls', p ∈ calls ∨
        ((p.2 : Book).rows = b.rows ∧ (p.2 : Book).cols = b.cols ∧
          (p.2 : Book).imgSize = b.imgSize) := by
  intro pgs
  induction pgs with
  | nil =>
    intro b calls b' calls' ab h
    simp only [Tiled.runPages, Option.some_inj] at h
    obtain ⟨rfl, rfl, rfl⟩ := h
    exact ⟨⟨rfl, rfl, rfl⟩, fun p hp => Or.inl hp⟩
  | cons pg rest ih =>
    intro b calls b' calls' ab h
    simp only [Tiled.runPages] at h
    cases hdp : Tiled.downloadPage (src pg) createOk b.imgSize b.cols b.rows pg
        b.retry fuel with
    | none => rw [hdp] at h; exact absurd h (by simp)
    | some out =>
      rw [hdp] at h
      by_cases hex : out.exited
      · simp only [hex, if_true, Option.some_inj] at h
        obtain ⟨rfl, rfl, rfl⟩ := h
        refine ⟨⟨rfl, rfl, rfl⟩, ?_⟩
        intro p hp
        rcases List.mem_append.1 hp with hp | hp
        · exact Or.inl hp
        · simp only [List.mem_singleton] at hp
          subst hp
          exact Or.inr ⟨rfl, rfl, rfl⟩
      · simp only [hex, if_false, Bool.false_eq_true] at h
        have hrec := ih { b with retry := 2 } (calls ++ [(pg, b)]) b' calls' ab h
        refine ⟨hrec.1, ?_⟩
        intro p hp
        rcases hrec.2 p hp with hp2 | hp2
        · rcases List.mem_append.1 hp2 with hp3 | hp3
          · exact Or.inl hp3
          · simp only [List.mem_singleton] at hp3
            subst hp3
            exact Or.inr ⟨rfl, rfl, rfl⟩
        · exact Or.inr hp2

/-- C9: in tiled mode the grid dimensions and the page pixel size are
resolved exactly once, by `findRowsColsAndImgSize` inside `NewBook`,
before any page is assembled, and every `downloadPage` call of the whole
`downloadBook` run observes exactly the `rows`, `cols` and `imgSize`
values established at construction — no step of the run modifies them. -/
theorem C9_grid_resolved_once (id : String) (length : Nat)
    (rowProbe colProbe : Nat → Option Nat) (pfuel : Nat)
    (src : String → Nat → Nat → TResp) (createOk : Bool) (fuel : Nat)
    (b0 : Book) (out : Tiled.RunOut)
    (hNew : Tiled.NewBook id length rowProbe colProbe pfuel = some b0)
    (hRun : Tiled.downloadBook src createOk fuel b0 = some out) :
    (∃ g, findRowsColsAndImgSize rowProbe colProbe pfuel = some g ∧
      b0.rows = g.rows ∧ b0.cols = g.cols ∧ b0.imgSize = (g.width, g.height)) ∧
    ∀ p ∈ out.calls, (p.2 : Book).rows = b0.rows ∧ (p.2 : Book).cols = b0.cols ∧
      (p.2 : Book).imgSize = b0.imgSize := by
  constructor
  · unfold Tiled.NewBook at hNew
    cases hg : findRowsColsAndImgSize rowProbe colProbe pfuel with
    | none => rw [hg] at hNew; exact absurd hNew (by simp)
    | some g =>
      rw [hg] at hNew
      simp only [Option.some_inj] at hNew
      subst hNew
      exact ⟨g, rfl, rfl, rfl, rfl⟩
  · unfold Tiled.downloadBook at hRun
    cases hrp : Tiled.runPages src createOk fuel
        ("C1" :: (List.range b0.length).map (fun i => toString (i + 1))) b0 []
        with
    | none => rw [hrp] at hRun; exact absurd hRun (by simp)
    | some res =>
      obtain ⟨b1, calls, ab⟩ := res
      have hgrid := tiled_runPages_grid src createOk fuel _ b0 [] b1 calls ab hrp
      have hcalls : ∀ p ∈ calls, (p.2 : Book).rows = b0.rows ∧
          (p.2 : Book).cols = b0.cols ∧ (p.2 : Book).imgSize = b0.imgSize := by
        intro p hp
        rcases hgrid.2 p hp with hp2 | hp2
        · cases hp2
        · exact hp2
      rw [hrp] at hRun
      cases ab with
      | true =>
        simp only [Option.some_inj] at hRun
        subst hRun
        exact hcalls
      | false =>
        simp only at hRun
        cases hdp : Tiled.downloadPage (src "C3") createOk b1.imgSize b1.cols
            b1.rows "C3" b1.retry fuel with
        | none => rw [hdp] at hRun; exact absurd hRun (by simp)
        | some o =>
          rw [hdp] at hRun
          have hmem : ∀ p ∈ calls ++ [("C3", b1)], (p.2 : Book).rows = b0.rows ∧
              (p.2 : Book).cols = b0.cols ∧ (p.2 : Book).imgSize = b0.imgSize := by
            intro p hp
            rcases List.mem_append.1 hp with hp | hp
            · exact hcalls p hp
            · simp only [List.mem_singleton] at hp
              subst hp
              exact hgrid.1
          by_cases hex : o.exited
          · simp only [hex, if_true, Option.some_inj] at hRun
            subst hRun
            exact hmem
          · simp only [hex, if_false, Bool.false_eq_true, Option.some_inj]
              at hRun
            subst hRun
            exact hmem

/-- Witness for C9: a concrete 1 × 1 grid session downloading one page. -/
theorem C9_witness :
    (∃ g, findRowsColsAndImgSize (fun i => if i < 1 then some 4 else none)
        (fun i => if i < 1 then some 4 else none) 2 = some g ∧
      (⟨"b", 1, 1, 1, (4, 4), 2⟩ : Book).rows = g.rows ∧
      (⟨"b", 1, 1, 1, (4, 4), 2⟩ : Book).cols = g.cols ∧
      (⟨"b", 1, 1, 1, (4, 4), 2⟩ : Book).imgSize = (g.width, g.height)) ∧
    ∀ p ∈ (Tiled.RunOut.mk ⟨"b", 1, 1, 1, (4, 4), 2⟩
        [("C1", ⟨"b", 1, 1, 1, (4, 4), 2⟩), ("1", ⟨"b", 1, 1, 1, (4, 4), 2⟩),
         ("C3", ⟨"b", 1, 1, 1, (4, 4), 2⟩)] ["C1", "1", "C3"] false).calls,
      (p.2 : Book).rows = (⟨"b", 1, 1, 1, (4, 4), 2⟩ : Book).rows ∧
      (p.2 : Book).cols = (⟨"b", 1, 1, 1, (4, 4), 2⟩ : Book).cols ∧
      (p.2 : Book).imgSize = (⟨"b", 1, 1, 1, (4, 4), 2⟩ : Book).imgSize :=
  C9_grid_resolved_once "b" 1 (fun i => if i < 1 then some 4 else none)
    (fun i => if i < 1 then some 4 else none) 2 allOkTiledSrc true 10 _ _
    (by decide) (by decide)

/-- C10: in tiled mode `downloadPage` serializes an output JPEG for every
page identifier whenever local file creation succeeds, even when every
tile fetch failed transiently and the retry budget is exhausted: the
abandoned page is written as the blank raster (no pastes), and the
orchestrator's PDF receives every page of a completed run with no
existence check, so that file is placed into the document like any
successful page. -/
theorem C10_abandoned_page_written :
    (∀ (src : Nat → Nat → TResp), (∀ c r, isTransientFail (src c r) = true) →
      ∀ (C R : Nat) (imgSize : Nat × Nat) (pg : String) (retry : Int)
        (fuel : Nat),
        (retry + 1).toNat + R * (C + 1) + C < fuel →
        ∃ retryOut reqsOut,
          Tiled.downloadPage src true imgSize C R pg retry fuel
            = some ⟨some ⟨pg ++ ".jpg", imgSize, []⟩, retryOut, reqsOut, false⟩)
    ∧ (∀ (src : String → Nat → Nat → TResp) (createOk : Bool) (fuel : Nat)
        (b : Book) (out : Tiled.RunOut),
        Tiled.downloadBook src createOk fuel b = some out →
        out.aborted = false →
        out.pdf = "C1" :: ((List.range b.length).map (fun i => toString (i + 1))
          ++ ["C3"])) := by
  constructor
  · intro src hsrc C R imgSize pg retry fuel hm
    obtain ⟨retryOut, reqsOut, hloop⟩ := tiled_loop_allFail src hsrc C R fuel
      0 0 0 0 retry [] 0 (by simpa using hm)
    exact ⟨retryOut, reqsOut, by simp [Tiled.downloadPage, hloop]⟩
  · intro src createOk fuel b out hrun hab
    unfold Tiled.downloadBook at hrun
    cases hrp : Tiled.runPages src createOk fuel
        ("C1" :: (List.range b.length).map (fun i => toString (i + 1))) b []
        with
    | none => rw [hrp] at hrun; exact absurd hrun (by simp)
    | some res =>
      obtain ⟨b1, calls, ab⟩ := res
      rw [hrp] at hrun
      cases ab with
      | true =>
        simp only [Option.some_inj] at hrun
        subst hrun
        cases hab
      | false =>
        simp only at hrun
        cases hdp : Tiled.downloadPage (src "C3") createOk b1.imgSize b1.cols
            b1.rows "C3" b1.retry fuel with
        | none => rw [hdp] at hrun; exact absurd hrun (by simp)
        | some o =>
          rw [hdp] at hrun
          by_cases hex : o.exited
          · simp only [hex, if_true, Option.some_inj] at hrun
            subst hrun
            cases hab
          · simp only [hex, if_false, Bool.false_eq_true, Option.some_inj]
              at hrun
            subst hrun
            rfl

/-- Witness for C10: a 1 × 1 grid whose single tile always answers 500
still produces `p.jpg` with an empty paste list; and a completed
all-success run of one numbered page puts `C1`, `1`, `C3` into the PDF. -/
theorem C10_witness :
    (∃ retryOut reqsOut,
      Tiled.downloadPage (fun _ _ => TResp.status 500 .bad) true (9, 9) 1 1
        "p" 2 7
        = some ⟨some ⟨"p.jpg", (9, 9), []⟩, retryOut, reqsOut, false⟩)
    ∧ (Tiled.RunOut.mk ⟨"b", 1, 1, 1, (4, 4), 2⟩
        [("C1", ⟨"b", 1, 1, 1, (4, 4), 2⟩), ("1", ⟨"b", 1, 1, 1, (4, 4), 2⟩),
         ("C3", ⟨"b", 1, 1, 1, (4, 4), 2⟩)] ["C1", "1", "C3"] false).pdf
      = "C1" :: ((List.range (⟨"b", 1, 1, 1, (4, 4), 2⟩ : Book).length).map
          (fun i => toString (i + 1)) ++ ["C3"]) :=
  ⟨C10_abandoned_page_written.1 _ (fun _ _ => by decide) 1 1 (9, 9) "p" 2 7
      (by decide),
   C10_abandoned_page_written.2 allOkTiledSrc true 10 ⟨"b", 1, 1, 1, (4, 4), 2⟩
      _ (by decide) rfl⟩

theorem direct_introLoop_hit (src : String → Nat → DResp) (createOk : Bool)
    (head : String → Bool) (pageFuel fuel n : Nat) (retry : Int)
    (calls : List (String × Int)) (files : List String) (out : DPageOut)
    (hhead : head ("I" ++ toString n) = true)
    (hdp : Direct.downloadPage (src ("I" ++ toString n)) createOk pageFuel
      retry 0 = some out) :
    Direct.introLoop src createOk head pageFuel (fuel + 1) n retry calls files
      = Direct.introLoop src createOk head pageFuel fuel (n + 1) out.retry
          (calls ++ [("I" ++ toString n, retry)])
          (files ++ if out.written then ["I" ++ toString n ++ ".jpg"] else []) := by
  simp only [Direct.introLoop, hhead, if_true, hdp]

theorem direct_introLoop_none (src : String → Nat → DResp) (createOk : Bool)
    (head : String → Bool) (pageFuel fuel n : Nat) (retry : Int)
    (calls : List (String × Int)) (files : List String)
    (hhead : head ("I" ++ toString n) = true)
    (hdp : Direct.downloadPage (src ("I" ++ toString n)) createOk pageFuel
      retry 0 = none) :
    Direct.introLoop src createOk head pageFuel (fuel + 1) n retry calls files
      = none := by
  simp only [Direct.introLoop, hhead, if_true, hdp]

theorem direct_introLoop_miss (src : String → Nat → DResp) (createOk : Bool)
    (head : String → Bool) (pageFuel fuel n : Nat) (retry : Int)
    (calls : List (String × Int)) (files : List String)
    (hhead : head ("I" ++ toString n) = false) :
    Direct.introLoop src createOk head pageFuel (fuel + 1) n retry calls files
      = some (n, retry, calls, files) := by
  simp only [Direct.introLoop, hhead, Bool.false_eq_true, if_false]

theorem direct_introLoop_two (src : String → Nat → DResp) (createOk : Bool)
    (head : String → Bool) (pageFuel : Nat)
    (h1 : head "I1" = true) (h2 : head "I2" = true) (h3 : head "I3" = false) :
    ∀ (fuel : Nat), 3 ≤ fuel → ∀ (retry : Int) (calls : List (String × Int))
      (files : List String)
      (res : Nat × Int × List (String × Int) × List String),
      Direct.introLoop src createOk head pageFuel fuel 1 retry calls files
        = some res →
      res.1 = 3 ∧ res.2.2.1.map Prod.fst = calls.map Prod.fst ++ ["I1", "I2"] := by
  have hs1 : ("I" ++ toString (1 : Nat)) = "I1" := by decide
  have hs2 : ("I" ++ toString (1 + 1 : Nat)) = "I2" := by decide
  have hs3 : ("I" ++ toString (1 + 1 + 1 : Nat)) = "I3" := by decide
  intro fuel hfuel retry calls files res h
  obtain ⟨f1, rfl⟩ : ∃ f1, fuel = f1 + 1 := ⟨fuel - 1, by omega⟩
  obtain ⟨f2, rfl⟩ : ∃ f2, f1 = f2 + 1 := ⟨f1 - 1, by omega⟩
  obtain ⟨f3, rfl⟩ : ∃ f3, f2 = f3 + 1 := ⟨f2 - 1, by omega⟩
  cases hd1 : Direct.downloadPage (src ("I" ++ toString (1 : Nat))) createOk
      pageFuel retry 0 with
  | none =>
    rw [direct_introLoop_none src createOk head pageFuel (f3 + 1 + 1) 1 retry
      calls files (by rw [hs1]; exact h1) hd1] at h
    exact absurd h (by simp)
  | some out1 =>
    rw [direct_introLoop_hit src createOk head pageFuel (f3 + 1 + 1) 1 retry
      calls files out1 (by rw [hs1]; exact h1) hd1] at h
    cases hd2 : Direct.downloadPage (src ("I" ++ toString (1 + 1 : Nat)))
        createOk pageFuel out1.retry 0 with
    | none =>
      rw [direct_introLoop_none src createOk head pageFuel (f3 + 1) (1 + 1)
        out1.retry _ _ (by rw [hs2]; exact h2) hd2] at h
      exact absurd h (by simp)
    | some out2 =>
      rw [direct_introLoop_hit src createOk head pageFuel (f3 + 1) (1 + 1)
        out1.retry _ _ out2 (by rw [hs2]; exact h2) hd2] at h
      rw [direct_introLoop_miss src createOk head pageFuel f3 (1 + 1 + 1)
        out2.retry _ _ (by rw [hs3]; exact h3)] at h
      simp only [Option.some_inj] at h
      subst h
      refine ⟨rfl, ?_⟩
      simp [hs1, hs2]

theorem direct_runPages_calls (src : String → Nat → DResp) (createOk : Bool)
    (pageFuel : Nat) :
    ∀ (pgs : List String) (retry : Int) (calls : List (String × Int))
      (files : List String) (res : Int × List (String × Int) × List String),
      Direct.runPages src createOk pageFuel pgs retry calls files = some res →
      res.2.1.map Prod.fst = calls.map Prod.fst ++ pgs := by
  intro pgs
  induction pgs with
  | nil =>
    intro retry calls files res h
    simp only [Direct.runPages, Option.some_inj] at h
    subst h
    simp
  | cons pg rest ih =>
    intro retry calls files res h
    simp only [Direct.runPages] at h
    cases hdp : Direct.downloadPage (src pg) createOk pageFuel retry 0 with
    | none => rw [hdp] at h; exact absurd h (by simp)
    | some out =>
      rw [hdp] at h
      have hrec := ih out.retry (calls ++ [(pg, retry)])
        (files ++ if out.written then [pg ++ ".jpg"] else []) res h
      rw [hrec]
      simp

/-- Direct-mode orchestrator behavior on intro pages: when the existence
probes succeed exactly for `I1` and `I2` and fail for `I3`, the probes go
in increasing order from `I1`, the first missing index ends the intro
sequence, and the run downloads exactly `C1, I1, I2, 1..length, C3` in
that order. -/
theorem direct_downloadBook_intro_calls (src : String → Nat → DResp)
    (head : String → Bool) (createOk : Bool) (lenFuel introFuel pageFuel : Nat)
    (id : String) (length0 : Nat) (retry0 : Int) (out : Direct.DirectRunOut)
    (h1 : head "I1" = true) (h2 : head "I2" = true) (h3 : head "I3" = false)
    (hlen : length0 ≠ 0) (hfuel : 3 ≤ introFuel)
    (hrun : Direct.downloadBook src head createOk lenFuel introFuel pageFuel id
      length0 retry0 = some out) :
    out.calls.map Prod.fst
      = ["C1", "I1", "I2"]
        ++ (List.range length0).map (fun i => toString (i + 1)) ++ ["C3"]
    ∧ out.introCount = 2 := by
  unfold Direct.downloadBook at hrun
  rw [if_neg hlen] at hrun
  simp only at hrun
  cases hC1 : Direct.downloadPage (src "C1") createOk pageFuel retry0 0 with
  | none => rw [hC1] at hrun; exact absurd hrun (by simp)
  | some outC1 =>
    rw [hC1] at hrun
    simp only at hrun
    cases hIL : Direct.introLoop src createOk head pageFuel introFuel 1
        outC1.retry [("C1", retry0)]
        (if outC1.written then ["C1.jpg"] else []) with
    | none => rw [hIL] at hrun; exact absurd hrun (by simp)
    | some resI =>
      obtain ⟨n, retry1, calls1, files1⟩ := resI
      have hintro := direct_introLoop_two src createOk head pageFuel h1 h2 h3
        introFuel hfuel outC1.retry [("C1", retry0)]
        (if outC1.written then ["C1.jpg"] else []) (n, retry1, calls1, files1)
        hIL
      rw [hIL] at hrun
      simp only at hrun
      cases hRP : Direct.runPages src createOk pageFuel
          ((List.range length0).map (fun i => toString (i + 1))) retry1 calls1
          files1 with
      | none => rw [hRP] at hrun; exact absurd hrun (by simp)
      | some resR =>
        obtain ⟨retry2, calls2, files2⟩ := resR
        have hnum := direct_runPages_calls src createOk pageFuel
          ((List.range length0).map (fun i => toString (i + 1))) retry1 calls1
          files1 (retry2, calls2, files2) hRP
        rw [hRP] at hrun
        simp only at hrun
        cases hC3 : Direct.downloadPage (src "C3") createOk pageFuel retry2 0
            with
        | none => rw [hC3] at hrun; exact absurd hrun (by simp)
        | some outC3 =>
          rw [hC3] at hrun
          simp only [Option.some_inj] at hrun
          subst hrun
          have hn : n = 3 := hintro.1
          have hintro2 : calls1.map Prod.fst
              = [("C1", retry0)].map Prod.fst ++ ["I1", "I2"] := hintro.2
          have hnum2 : calls2.map Prod.fst
              = calls1.map Prod.fst
                ++ (List.range length0).map (fun i => toString (i + 1)) := hnum
          constructor
          · simp only [List.map_append, List.map_cons, List.map_nil]
            rw [hnum2, hintro2]
            simp
          · simp only
            omega

theorem tiled_runPages_pages (src : String → Nat → Nat → TResp)
    (createOk : Bool) (fuel : Nat) :
    ∀ (pgs : List String) (b : Book) (calls : List (String × Book))
      (b' : Book) (calls' : List (String × Book)) (ab : Bool),
      Tiled.runPages src createOk fuel pgs b calls = some (b', calls', ab) →
      ∀ p ∈ calls', p ∈ calls ∨ (p : String × Book).1 ∈ pgs := by
  intro pgs
  induction pgs with
  | nil =>
    intro b calls b' calls' ab h
    simp only [Tiled.runPages, Option.some_inj] at h
    obtain ⟨rfl, rfl, rfl⟩ := h
    exact fun p hp => Or.inl hp
  | cons pg rest ih =>
    intro b calls b' calls' ab h
    simp only [Tiled.runPages] at h
    cases hdp : Tiled.downloadPage (src pg) createOk b.imgSize b.cols b.rows pg
        b.retry fuel with
    | none => rw [hdp] at h; exact absurd h (by simp)
    | some out =>
      rw [hdp] at h
      by_cases hex : out.exited
      · simp only [hex, if_true, Option.some_inj] at h
        obtain ⟨rfl, rfl, rfl⟩ := h
        intro p hp
        rcases List.mem_append.1 hp with hp | hp
        · exact Or.inl hp
        · simp only [List.mem_singleton] at hp
          subst hp
          exact Or.inr (List.mem_cons_self pg rest)
      · simp only [hex, if_false, Bool.false_eq_true] at h
        intro p hp
        rcases ih { b with retry := 2 } (calls ++ [(pg, b)]) b' calls' ab h p hp
            with hp2 | hp2
        · rcases List.mem_append.1 hp2 with hp3 | hp3
          · exact Or.inl hp3
          · simp only [List.mem_singleton] at hp3
            subst hp3
            exact Or.inr (List.mem_cons_self pg rest)
        · exact Or.inr (List.mem_cons_of_mem pg hp2)

/-- Every `downloadPage` invocation of a tiled `downloadBook` run is the
front cover `C1`, the back cover `C3` or one of the numbered pages
`1..length`: the tiled orchestrator requests no other page id, so it
never probes or assembles an intro page. -/
theorem tiled_downloadBook_pages (src : String → Nat → Nat → TResp)
    (createOk : Bool) (fuel : Nat) (b : Book) (out : Tiled.RunOut)
    (hrun : Tiled.downloadBook src createOk fuel b = some out) :
    ∀ p ∈ out.calls, (p : String × Book).1 = "C1" ∨ p.1 = "C3"
      ∨ p.1 ∈ (List.range b.length).map (fun i => toString (i + 1)) := by
  unfold Tiled.downloadBook at hrun
  cases hrp : Tiled.runPages src createOk fuel
      ("C1" :: (List.range b.length).map (fun i => toString (i + 1))) b [] with
  | none => rw [hrp] at hrun; exact absurd hrun (by simp)
  | some res =>
    obtain ⟨b1, calls, ab⟩ := res
    have hpages := tiled_runPages_pages src createOk fuel _ b [] b1 calls ab hrp
    have hcalls : ∀ p ∈ calls, (p : String × Book).1 = "C1" ∨ p.1 = "C3"
        ∨ p.1 ∈ (List.range b.length).map (fun i => toString (i + 1)) := by
      intro p hp
      rcases hpages p hp with hp2 | hp2
      · cases hp2
      · rcases List.mem_cons.1 hp2 with hp3 | hp3
        · exact Or.inl hp3
        · exact Or.inr (Or.inr hp3)
    rw [hrp] at hrun
    cases ab with
    | true =>
      simp only [Option.some_inj] at hrun
      subst hrun
      exact hcalls
    | false =>
      simp only at hrun
      cases hdp : Tiled.downloadPage (src "C3") createOk b1.imgSize b1.cols
          b1.rows "C3" b1.retry fuel with
      | none => rw [hdp] at hrun; exact absurd hrun (by simp)
      | some o =>
        rw [hdp] at hrun
        have hmem : ∀ p ∈ calls ++ [("C3", b1)],
            (p : String × Book).1 = "C1" ∨ p.1 = "C3"
            ∨ p.1 ∈ (List.range b.length).map (fun i => toString (i + 1)) := by
          intro p hp
          rcases List.mem_append.1 hp with hp | hp
          · exact hcalls p hp
          · simp only [List.mem_singleton] at hp
            subst hp
            exact Or.inr (Or.inl rfl)
        by_cases hex : o.exited
        · simp only [hex, if_true, Option.some_inj] at hrun
          subst hrun
          exact hmem
        · simp only [hex, if_false, Bool.false_eq_true, Option.some_inj]
            at hrun
          subst hrun
          exact hmem

/-- C7 (amended): only the direct-mode orchestrator discovers intro
pages.  There, when the existence probes succeed exactly for `I1` and
`I2` and fail for `I3`, the probes go in increasing order from `I1`, the
first missing index ends the intro sequence, and the run downloads
exactly the pages `C1, I1, I2, 1..length, C3` in that order — the two
intro pages between the front cover and the numbered pages (first
conjunct).  The tiled-mode orchestrator never probes or assembles any
intro page: every page it ever requests is `C1`, `C3` or a numbered page
(second conjunct). -/
theorem C7_intro_pages :
    (∀ (src : String → Nat → DResp) (head : String → Bool) (createOk : Bool)
        (lenFuel introFuel pageFuel : Nat) (id : String) (length0 : Nat)
        (retry0 : Int) (out : Direct.DirectRunOut),
      head "I1" = true → head "I2" = true → head "I3" = false →
      length0 ≠ 0 → 3 ≤ introFuel →
      Direct.downloadBook src head createOk lenFuel introFuel pageFuel id
        length0 retry0 = some out →
      out.calls.map Prod.fst
        = ["C1", "I1", "I2"]
          ++ (List.range length0).map (fun i => toString (i + 1)) ++ ["C3"]
      ∧ out.introCount = 2)
    ∧ (∀ (src : String → Nat → Nat → TResp) (createOk : Bool) (fuel : Nat)
        (b : Book) (out : Tiled.RunOut),
      Tiled.downloadBook src createOk fuel b = some out →
      ∀ p ∈ out.calls, (p : String × Book).1 = "C1" ∨ p.1 = "C3"
        ∨ p.1 ∈ (List.range b.length).map (fun i => toString (i + 1))) := by
  constructor
  · intro src head createOk lenFuel introFuel pageFuel id length0 retry0 out
      h1 h2 h3 hlen hfuel hrun
    exact direct_downloadBook_intro_calls src head createOk lenFuel introFuel
      pageFuel id length0 retry0 out h1 h2 h3 hlen hfuel hrun
  · intro src createOk fuel b out hrun
    exact tiled_downloadBook_pages src createOk fuel b out hrun

/-- Witness for the amended C7: a concrete direct-mode run with intro
pages `I1`, `I2` and one numbered page downloads `C1, I1, I2, 1, C3` in
order and reports two intro pages; a concrete tiled run against the same
kind of source (intro probes succeeding for `I1`, `I2`, failing at `I3`)
requests only `C1`, `C3` and numbered pages. -/
theorem C7_intro_pages_witness :
    ((Direct.DirectRunOut.mk 2
        [("C1", 2), ("I1", 2), ("I2", 2), ("1", 2), ("C3", 2)]
        ["C1.jpg", "I1.jpg", "I2.jpg", "1.jpg", "C3.jpg"] 2
        ["C1", "I1", "I2", "1", "C3"] "b.pdf").calls.map Prod.fst
      = ["C1", "I1", "I2"]
        ++ (List.range 1).map (fun i => toString (i + 1)) ++ ["C3"]
    ∧ (Direct.DirectRunOut.mk 2
        [("C1", 2), ("I1", 2), ("I2", 2), ("1", 2), ("C3", 2)]
        ["C1.jpg", "I1.jpg", "I2.jpg", "1.jpg", "C3.jpg"] 2
        ["C1", "I1", "I2", "1", "C3"] "b.pdf").introCount = 2)
    ∧ ∀ p ∈ (Tiled.RunOut.mk ⟨"b", 3, 1, 1, (4, 4), 2⟩
        [("C1", ⟨"b", 3, 1, 1, (4, 4), 2⟩), ("1", ⟨"b", 3, 1, 1, (4, 4), 2⟩),
         ("2", ⟨"b", 3, 1, 1, (4, 4), 2⟩), ("3", ⟨"b", 3, 1, 1, (4, 4), 2⟩),
         ("C3", ⟨"b", 3, 1, 1, (4, 4), 2⟩)]
        ["C1", "1", "2", "3", "C3"] false).calls,
      (p : String × Book).1 = "C1" ∨ p.1 = "C3"
      ∨ p.1 ∈ (List.range (⟨"b", 3, 1, 1, (4, 4), 2⟩ : Book).length).map
          (fun i => toString (i + 1)) :=
  ⟨C7_intro_pages.1 allOkDirectSrc (fun s => s == "I1" || s == "I2") true 0 3 5
      "b" 1 2 _ (by decide) (by decide) (by decide) (by decide) (by decide)
      (by decide),
   C7_intro_pages.2 introTiledSrc true 10 ⟨"b", 3, 1, 1, (4, 4), 2⟩ _
      (by decide)⟩

/-- C7 counterexample: a tiled-mode run against a source whose intro-page
existence probes succeed exactly for `I1` and `I2` and fail for `I3`
(the first three conjuncts exhibit that premise) still assembles exactly
`C1, 1, 2, 3, C3`: the tiled orchestrator issues no intro probe and
assembles zero intro pages, not the two the claim requires. -/
theorem C7_counterexample :
    introTiledSrc "I1" 0 0 = TResp.status 200 (.img 4 4)
    ∧ introTiledSrc "I2" 0 0 = TResp.status 200 (.img 4 4)
    ∧ introTiledSrc "I3" 0 0 = TResp.status 404 .bad
    ∧ (Tiled.downloadBook introTiledSrc true 10 ⟨"b", 3, 1, 1, (4, 4), 2⟩).map
        (fun o => o.calls.map Prod.fst) = some ["C1", "1", "2", "3", "C3"]
    ∧ "I1" ∉ (["C1", "1", "2", "3", "C3"] : List String) := by
  refine ⟨by decide, by decide, by decide, by decide, by decide⟩

/-- C8: a direct-mode run with book id `"000123456"`, supplied length 3,
no intro pages and every fetch succeeding hands exactly the five pages
`C1, 1, 2, 3, C3` to the document sink in that order and names the
output `000123456.pdf`. -/
theorem C8_direct_end_to_end :
    (Direct.downloadBook allOkDirectSrc (fun _ => false) true 0 1 5
        "000123456" 3 2).map (fun o => (o.pdf, o.pdfName))
      = some (["C1", "1", "2", "3", "C3"], "000123456.pdf") := by
  decide

end NB
